import Mathlib

/-!
ColorConvert3: RGB to RGBW conversion

A shallow embedding of `src/ColorConvert3.h` and `src/ColorConvert3.cpp`.

Modelling conventions

* `float` values are exact rationals (`ℚ`): every arithmetic operation of the source is
  taken without rounding, so the theorems below speak about the algorithm in exact
  arithmetic.
* The `unsigned int` channels of `ColorRgb` are natural numbers.  The struct is documented
  as "0-255 based"; the conversions `unsigned int -> int` of the source (`high`, `low`) are
  the identity on that domain.
* `int(x)` truncates towards zero (`truncToInt`).
* `ColorRgbw` holds, for each channel, the `int` value that the source assigns to the
  `unsigned int` field.  For a non-negative value this is the stored value.
* Fixed-width integers are modelled by `rgbToRgbwInt` and `rgbToRgbwWord`, which take the
  width `W` of `int` and `unsigned int` as a parameter (`Arduino.h` fixes it per board):
  the `int high` wraps, `int(x)` is undefined when out of range, and the `unsigned int`
  fields hold their value modulo `2^W`.  Statements over all inputs or all overdrive
  values are made about these two functions.
* `min` and `max` come from `Arduino.h` (`((a)<(b)?(a):(b))`, `((a)>(b)?(a):(b))`); on a
  linear order they are the usual minimum and maximum.
-/

/-- The `ColorRgb` struct of `ColorConvert3.h`: a 0-255 based RGB colour triplet. -/
structure ColorRgb where
  red : Nat
  green : Nat
  blue : Nat
  deriving DecidableEq, Repr

/-- The `ColorRgbw` struct of `ColorConvert3.h`: a 0-255 based RGBW colour quadruplet.
Each field carries the `int` value assigned to it by `rgbToRgbw`. -/
structure ColorRgbw where
  red : Int
  green : Int
  blue : Int
  white : Int
  deriving DecidableEq, Repr

/-- The private calibration fields of class `ColorConvert`. -/
structure ColorConvert where
  rEquiv : ℚ
  gEquiv : ℚ
  bEquiv : ℚ
  wEquiv : ℚ
  over : ℚ
  deriving DecidableEq

/-- The C++ conversion `int(x)` of a floating value: truncation towards zero. -/
def truncToInt (x : ℚ) : Int :=
  if 0 ≤ x then ⌊x⌋ else -⌊-x⌋

/-- The constructor `ColorConvert::ColorConvert()` (the spec's `construct`). -/
def ColorConvert.construct : ColorConvert :=
  { rEquiv := 625, gEquiv := 400, bEquiv := 223, wEquiv := 625, over := 6 / 10 }

/-- The method `ColorConvert::setWhiteEquiv`. -/
def ColorConvert.setWhiteEquiv (self : ColorConvert) (rgbValue whiteValue : ℚ) :
    ColorConvert :=
  let wEquiv := 255 * rgbValue / whiteValue
  { self with wEquiv := wEquiv, rEquiv := wEquiv, gEquiv := wEquiv, bEquiv := wEquiv }

/-- The method `ColorConvert::setRgbWhiteEquiv`. -/
def ColorConvert.setRgbWhiteEquiv (self : ColorConvert)
    (redValue greenValue blueValue whiteValue : ℚ) : ColorConvert :=
  let rEquiv := 255 * redValue / whiteValue
  let gEquiv := 255 * greenValue / whiteValue
  let bEquiv := 255 * blueValue / whiteValue
  { self with rEquiv := rEquiv, gEquiv := gEquiv, bEquiv := bEquiv,
              wEquiv := max rEquiv (max gEquiv bEquiv) }

/-- The method `ColorConvert::setOverdrive`. -/
def ColorConvert.setOverdrive (self : ColorConvert) (overdrive : ℚ) : ColorConvert :=
  { self with over := overdrive }

/-- The method `ColorConvert::getMaxUnstretchedOverdrive`; it reads no field. -/
def ColorConvert.getMaxUnstretchedOverdrive (_self : ColorConvert) (whiteValue : ℚ) : ℚ :=
  1 - whiteValue / 255

/-- The locals `high` and `thisShift` of `rgbToRgbw` after the if-chain of lines 84-98. -/
def ColorConvert.highShift (self : ColorConvert) (inColor : ColorRgb) : Nat × ℚ :=
  let hs : Nat × ℚ :=
    if inColor.green > inColor.red then (inColor.green, self.wEquiv / self.gEquiv)
    else (inColor.red, self.wEquiv / self.rEquiv)
  if inColor.blue > hs.1 then (inColor.blue, self.wEquiv / self.bEquiv) else hs

/-- The local `high` of `rgbToRgbw`. -/
def ColorConvert.high (self : ColorConvert) (inColor : ColorRgb) : Nat :=
  (self.highShift inColor).1

/-- The local `thisShift` of `rgbToRgbw`. -/
def ColorConvert.thisShift (self : ColorConvert) (inColor : ColorRgb) : ℚ :=
  (self.highShift inColor).2

/-- The local `low` of `rgbToRgbw`. -/
def ColorConvert.low (_self : ColorConvert) (inColor : ColorRgb) : Nat :=
  min inColor.red (min inColor.green inColor.blue)

/-- The local `saturation` of `rgbToRgbw`: `(high - low) / (float) high`. -/
def ColorConvert.saturation (self : ColorConvert) (inColor : ColorRgb) : ℚ :=
  (((self.high inColor : Int) - (self.low inColor : Int) : Int) : ℚ) / (self.high inColor : ℚ)

/-- The local `maxShift` of `rgbToRgbw`. -/
def ColorConvert.maxShift (self : ColorConvert) : ℚ :=
  self.over * self.wEquiv

/-- The test of line 124: the low-saturation, maximal-stretch branch is taken. -/
def ColorConvert.lowSaturation (self : ColorConvert) (inColor : ColorRgb) : Prop :=
  self.saturation inColor * (255 + self.maxShift) < self.thisShift inColor * 255

instance (self : ColorConvert) (inColor : ColorRgb) :
    Decidable (self.lowSaturation inColor) := by
  unfold ColorConvert.lowSaturation; infer_instance

/-- The local `stretch` of `rgbToRgbw`. -/
def ColorConvert.stretch (self : ColorConvert) (inColor : ColorRgb) : ℚ :=
  if self.lowSaturation inColor then (255 + self.maxShift) / 255
  else self.thisShift inColor / self.saturation inColor

/-- The local `ficR` of `rgbToRgbw`. -/
def ColorConvert.ficR (self : ColorConvert) (inColor : ColorRgb) : ℚ :=
  self.stretch inColor * (inColor.red : ℚ)

/-- The local `ficG` of `rgbToRgbw`. -/
def ColorConvert.ficG (self : ColorConvert) (inColor : ColorRgb) : ℚ :=
  self.stretch inColor * (inColor.green : ℚ)

/-- The local `ficB` of `rgbToRgbw`. -/
def ColorConvert.ficB (self : ColorConvert) (inColor : ColorRgb) : ℚ :=
  self.stretch inColor * (inColor.blue : ℚ)

/-- The local `ficLow` of `rgbToRgbw`: `min(stretch * low, wEquiv)`. -/
def ColorConvert.ficLow (self : ColorConvert) (inColor : ColorRgb) : ℚ :=
  min (self.stretch inColor * (self.low inColor : ℚ)) self.wEquiv

/-- The value `(ficR - ficLow)*rEquiv/wEquiv` of line 143, before `+ 0.5` and `int`. -/
def ColorConvert.rawRed (self : ColorConvert) (inColor : ColorRgb) : ℚ :=
  (self.ficR inColor - self.ficLow inColor) * self.rEquiv / self.wEquiv

/-- The value `(ficG - ficLow)*gEquiv/wEquiv` of line 144, before `+ 0.5` and `int`. -/
def ColorConvert.rawGreen (self : ColorConvert) (inColor : ColorRgb) : ℚ :=
  (self.ficG inColor - self.ficLow inColor) * self.gEquiv / self.wEquiv

/-- The value `(ficB - ficLow)*bEquiv/wEquiv` of line 145, before `+ 0.5` and `int`. -/
def ColorConvert.rawBlue (self : ColorConvert) (inColor : ColorRgb) : ℚ :=
  (self.ficB inColor - self.ficLow inColor) * self.bEquiv / self.wEquiv

/-- The value `ficLow * 255.0 / wEquiv` of line 146, before `+ 0.5` and `int`. -/
def ColorConvert.rawWhite (self : ColorConvert) (inColor : ColorRgb) : ℚ :=
  self.ficLow inColor * 255 / self.wEquiv

/-- The method `ColorConvert::rgbToRgbw`. -/
def ColorConvert.rgbToRgbw (self : ColorConvert) (inColor : ColorRgb) : ColorRgbw :=
  if self.high inColor < 1 then
    { red := 0, green := 0, blue := 0, white := 0 }
  else
    { red := truncToInt (self.rawRed inColor + 1 / 2)
      green := truncToInt (self.rawGreen inColor + 1 / 2)
      blue := truncToInt (self.rawBlue inColor + 1 / 2)
      white := truncToInt (self.rawWhite inColor + 1 / 2) }

/-- The method `ColorConvert::rgbToRgbw` instrumented: the result together with the
denominators of the floating-point divisions evaluated on the way, in evaluation order.
The control flow is that of lines 84-146: the ratio of the first branch, the ratio
`wEquiv/bEquiv` when blue exceeds the running maximum, the early return of line 106, then
`high` (line 110), `255.0` or `saturation` (lines 125, 128) and `wEquiv` four times
(lines 143-146). -/
def ColorConvert.rgbToRgbwTraced (self : ColorConvert) (inColor : ColorRgb) :
    ColorRgbw × List ℚ :=
  let hs : Nat × ℚ × List ℚ :=
    if inColor.green > inColor.red then
      (inColor.green, self.wEquiv / self.gEquiv, [self.gEquiv])
    else (inColor.red, self.wEquiv / self.rEquiv, [self.rEquiv])
  let hs2 : Nat × ℚ × List ℚ :=
    if inColor.blue > hs.1 then
      (inColor.blue, self.wEquiv / self.bEquiv, hs.2.2 ++ [self.bEquiv])
    else hs
  if hs2.1 < 1 then
    ({ red := 0, green := 0, blue := 0, white := 0 }, hs2.2.2)
  else
    let low : Nat := min inColor.red (min inColor.green inColor.blue)
    let saturation : ℚ := (((hs2.1 : Int) - (low : Int) : Int) : ℚ) / (hs2.1 : ℚ)
    let maxShift : ℚ := self.over * self.wEquiv
    let st : ℚ × List ℚ :=
      if saturation * (255 + maxShift) < hs2.2.1 * 255 then
        ((255 + maxShift) / 255, hs2.2.2 ++ [(hs2.1 : ℚ), 255])
      else (hs2.2.1 / saturation, hs2.2.2 ++ [(hs2.1 : ℚ), saturation])
    let ficLow : ℚ := min (st.1 * (low : ℚ)) self.wEquiv
    ({ red := truncToInt ((st.1 * (inColor.red : ℚ) - ficLow) * self.rEquiv / self.wEquiv
          + 1 / 2)
       green := truncToInt ((st.1 * (inColor.green : ℚ) - ficLow) * self.gEquiv
          / self.wEquiv + 1 / 2)
       blue := truncToInt ((st.1 * (inColor.blue : ℚ) - ficLow) * self.bEquiv / self.wEquiv
          + 1 / 2)
       white := truncToInt (ficLow * 255 / self.wEquiv + 1 / 2) },
      st.2 ++ [self.wEquiv, self.wEquiv, self.wEquiv, self.wEquiv])

/-- The conversion `unsigned int -> int` on a machine whose `int` has `W` bits (two's
complement): the assignments `high = inColor.red` etc. of lines 86, 91, 96. -/
def toIntWrap (W n : Nat) : Int :=
  if n % 2 ^ W < 2 ^ (W - 1) then ((n % 2 ^ W : Nat) : Int)
  else ((n % 2 ^ W : Nat) : Int) - 2 ^ W

/-- The conversion `int(x)` on a machine whose `int` has `W` bits: truncation towards zero
when the truncated value is representable; otherwise the behaviour is undefined (`none`). -/
def floatToInt (W : Nat) (x : ℚ) : Option Int :=
  if -(2 : Int) ^ (W - 1) ≤ truncToInt x ∧ truncToInt x < (2 : Int) ^ (W - 1) then
    some (truncToInt x)
  else none

/-- The conversion `int -> unsigned int` of the stores of lines 143-146: reduction modulo
`2^W`. -/
def toUnsigned (W : Nat) (i : Int) : Int :=
  i % 2 ^ W

/-- The method `ColorConvert::rgbToRgbw` with `W`-bit integers, up to the four `int` values
`int(x + 0.5)`, before they are stored.  `high` is the `int` obtained from the selected
`unsigned int` channel; `none` means that a conversion `int(x + 0.5)` is undefined.  The
channels of `inColor` are values of `unsigned int`, below `2^W`. -/
def ColorConvert.rgbToRgbwInt (self : ColorConvert) (W : Nat) (inColor : ColorRgb) :
    Option ColorRgbw :=
  if toIntWrap W (self.high inColor) < 1 then
    some { red := 0, green := 0, blue := 0, white := 0 }
  else
    match floatToInt W (self.rawRed inColor + 1 / 2),
      floatToInt W (self.rawGreen inColor + 1 / 2),
      floatToInt W (self.rawBlue inColor + 1 / 2),
      floatToInt W (self.rawWhite inColor + 1 / 2) with
    | some r, some g, some b, some w => some { red := r, green := g, blue := b, white := w }
    | _, _, _, _ => none

/-- The method `ColorConvert::rgbToRgbw` with `W`-bit integers: the returned struct, whose
`unsigned int` fields hold the `int` values reduced modulo `2^W`. -/
def ColorConvert.rgbToRgbwWord (self : ColorConvert) (W : Nat) (inColor : ColorRgb) :
    Option ColorRgbw :=
  (self.rgbToRgbwInt W inColor).map fun out =>
    { red := toUnsigned W out.red, green := toUnsigned W out.green,
      blue := toUnsigned W out.blue, white := toUnsigned W out.white }

/-- Every conversion `int(x + 0.5)` of lines 143-146 stays below `2^(W-1)`, the first value
that a `W`-bit `int` cannot hold. -/
def ColorConvert.fitsInt (self : ColorConvert) (W : Nat) (inColor : ColorRgb) : Prop :=
  self.rawRed inColor + 1 / 2 < 2 ^ (W - 1) ∧ self.rawGreen inColor + 1 / 2 < 2 ^ (W - 1)
    ∧ self.rawBlue inColor + 1 / 2 < 2 ^ (W - 1)
    ∧ self.rawWhite inColor + 1 / 2 < 2 ^ (W - 1)

instance (self : ColorConvert) (W : Nat) (inColor : ColorRgb) :
    Decidable (self.fitsInt W inColor) := by
  unfold ColorConvert.fitsInt; infer_instance

/-- The method `ColorConvert::getMaxUnstretchedOverdrive` in state-passing form: the
returned value together with the object after the call.  The body of the method (line 72)
assigns no field, so the object is handed back as it was. -/
def ColorConvert.getMaxUnstretchedOverdriveRun (self : ColorConvert) (whiteValue : ℚ) :
    ℚ × ColorConvert :=
  (self.getMaxUnstretchedOverdrive whiteValue, self)

/-! Auxiliary facts about the embedding -/

theorem truncToInt_of_nonneg {x : ℚ} (hx : 0 ≤ x) : truncToInt x = ⌊x⌋ := by
  unfold truncToInt; rw [if_pos hx]

theorem truncToInt_nonneg {x : ℚ} (hx : 0 ≤ x) : 0 ≤ truncToInt x := by
  rw [truncToInt_of_nonneg hx]; exact Int.floor_nonneg.mpr hx

theorem truncToInt_mono {x y : ℚ} (h : x ≤ y) : truncToInt x ≤ truncToInt y := by
  unfold truncToInt
  by_cases hx : 0 ≤ x
  · have hy : 0 ≤ y := le_trans hx h
    rw [if_pos hx, if_pos hy]; exact Int.floor_mono h
  · rw [if_neg hx]
    have hx0 : 0 ≤ -x := by linarith [not_le.mp hx]
    by_cases hy : 0 ≤ y
    · rw [if_pos hy]
      have h1 : 0 ≤ ⌊-x⌋ := Int.floor_nonneg.mpr hx0
      have h2 : 0 ≤ ⌊y⌋ := Int.floor_nonneg.mpr hy
      omega
    · rw [if_neg hy]
      have h1 : ⌊-y⌋ ≤ ⌊-x⌋ := Int.floor_mono (by linarith)
      omega

theorem ColorConvert.high_eq_max (self : ColorConvert) (c : ColorRgb) :
    self.high c = max (max c.red c.green) c.blue := by
  unfold ColorConvert.high ColorConvert.highShift
  by_cases h1 : c.green > c.red <;> by_cases h2 : c.blue > c.green <;>
    by_cases h3 : c.blue > c.red <;> simp [h1, h2, h3] <;> omega

theorem ColorConvert.low_le_high (self : ColorConvert) (c : ColorRgb) :
    self.low c ≤ self.high c := by
  rw [ColorConvert.high_eq_max]; unfold ColorConvert.low; omega

theorem ColorConvert.low_le_red (self : ColorConvert) (c : ColorRgb) :
    self.low c ≤ c.red := by
  unfold ColorConvert.low; omega

theorem ColorConvert.low_le_green (self : ColorConvert) (c : ColorRgb) :
    self.low c ≤ c.green := by
  unfold ColorConvert.low; omega

theorem ColorConvert.low_le_blue (self : ColorConvert) (c : ColorRgb) :
    self.low c ≤ c.blue := by
  unfold ColorConvert.low; omega

theorem ColorConvert.thisShift_pos (self : ColorConvert) (c : ColorRgb)
    (hr : 0 < self.rEquiv) (hg : 0 < self.gEquiv) (hb : 0 < self.bEquiv)
    (hw : 0 < self.wEquiv) : 0 < self.thisShift c := by
  unfold ColorConvert.thisShift ColorConvert.highShift
  have h1 := div_pos hw hr
  have h2 := div_pos hw hg
  have h3 := div_pos hw hb
  by_cases c1 : c.green > c.red <;> by_cases c2 : c.blue > c.green <;>
    by_cases c3 : c.blue > c.red <;> simp [c1, c2, c3, h1, h2, h3]

theorem ColorConvert.saturation_nonneg (self : ColorConvert) (c : ColorRgb) :
    0 ≤ self.saturation c := by
  unfold ColorConvert.saturation
  apply div_nonneg
  · have := self.low_le_high c
    exact_mod_cast (by omega : (0 : Int) ≤ (self.high c : Int) - (self.low c : Int))
  · exact Nat.cast_nonneg _

theorem ColorConvert.stretch_nonneg (self : ColorConvert) (c : ColorRgb)
    (hr : 0 < self.rEquiv) (hg : 0 < self.gEquiv) (hb : 0 < self.bEquiv)
    (hw : 0 < self.wEquiv) (ho : 0 ≤ 255 + self.over * self.wEquiv) :
    0 ≤ self.stretch c := by
  unfold ColorConvert.stretch
  split_ifs
  · unfold ColorConvert.maxShift; exact div_nonneg ho (by norm_num)
  · exact div_nonneg (self.thisShift_pos c hr hg hb hw).le (self.saturation_nonneg c)

theorem ColorConvert.ficLow_le (self : ColorConvert) (c : ColorRgb) :
    self.ficLow c ≤ self.stretch c * (self.low c : ℚ) :=
  min_le_left _ _

theorem ColorConvert.ficLow_le_wEquiv (self : ColorConvert) (c : ColorRgb) :
    self.ficLow c ≤ self.wEquiv :=
  min_le_right _ _

theorem ColorConvert.ficLow_nonneg (self : ColorConvert) (c : ColorRgb)
    (hw : 0 < self.wEquiv) (hs : 0 ≤ self.stretch c) : 0 ≤ self.ficLow c :=
  le_min (mul_nonneg hs (Nat.cast_nonneg _)) hw.le

/-- A scaled channel minus `ficLow` is non-negative when the stretch is. -/
theorem ColorConvert.sub_ficLow_nonneg (self : ColorConvert) (c : ColorRgb) (v : Nat)
    (hv : self.low c ≤ v) (hs : 0 ≤ self.stretch c) :
    0 ≤ self.stretch c * (v : ℚ) - self.ficLow c := by
  have h1 := self.ficLow_le c
  have h2 : self.stretch c * (self.low c : ℚ) ≤ self.stretch c * (v : ℚ) :=
    mul_le_mul_of_nonneg_left (by exact_mod_cast hv) hs
  linarith

theorem ColorConvert.rawRed_nonneg (self : ColorConvert) (c : ColorRgb)
    (hr : 0 < self.rEquiv) (hw : 0 < self.wEquiv) (hs : 0 ≤ self.stretch c) :
    0 ≤ self.rawRed c :=
  div_nonneg (mul_nonneg (self.sub_ficLow_nonneg c c.red (self.low_le_red c) hs) hr.le) hw.le

theorem ColorConvert.rawGreen_nonneg (self : ColorConvert) (c : ColorRgb)
    (hg : 0 < self.gEquiv) (hw : 0 < self.wEquiv) (hs : 0 ≤ self.stretch c) :
    0 ≤ self.rawGreen c :=
  div_nonneg (mul_nonneg (self.sub_ficLow_nonneg c c.green (self.low_le_green c) hs) hg.le)
    hw.le

theorem ColorConvert.rawBlue_nonneg (self : ColorConvert) (c : ColorRgb)
    (hb : 0 < self.bEquiv) (hw : 0 < self.wEquiv) (hs : 0 ≤ self.stretch c) :
    0 ≤ self.rawBlue c :=
  div_nonneg (mul_nonneg (self.sub_ficLow_nonneg c c.blue (self.low_le_blue c) hs) hb.le) hw.le

theorem ColorConvert.rawWhite_nonneg (self : ColorConvert) (c : ColorRgb)
    (hw : 0 < self.wEquiv) (hs : 0 ≤ self.stretch c) : 0 ≤ self.rawWhite c :=
  div_nonneg (mul_nonneg (self.ficLow_nonneg c hw hs) (by norm_num)) hw.le

/-- The result of `rgbToRgbw` past the early return of line 106. -/
theorem ColorConvert.rgbToRgbw_of_high (self : ColorConvert) (c : ColorRgb)
    (hh : 1 ≤ self.high c) :
    self.rgbToRgbw c =
      { red := truncToInt (self.rawRed c + 1 / 2)
        green := truncToInt (self.rawGreen c + 1 / 2)
        blue := truncToInt (self.rawBlue c + 1 / 2)
        white := truncToInt (self.rawWhite c + 1 / 2) } := by
  unfold ColorConvert.rgbToRgbw
  rw [if_neg (by omega)]

theorem truncToInt_half_sub_le {x : ℚ} (hx : 0 ≤ x) :
    |((truncToInt (x + 1 / 2) : Int) : ℚ) - x| ≤ 1 / 2 := by
  rw [truncToInt_of_nonneg (by linarith)]
  have h1 := Int.floor_le (x + 1 / 2)
  have h2 := Int.lt_floor_add_one (x + 1 / 2)
  rw [abs_le]
  constructor <;> linarith

theorem ColorConvert.high_gray (self : ColorConvert) (k : Nat) :
    self.high ⟨k, k, k⟩ = k := by
  simp [ColorConvert.high, ColorConvert.highShift]

theorem ColorConvert.low_gray (self : ColorConvert) (k : Nat) :
    self.low ⟨k, k, k⟩ = k := by
  simp [ColorConvert.low]

theorem ColorConvert.saturation_gray (self : ColorConvert) (k : Nat) :
    self.saturation ⟨k, k, k⟩ = 0 := by
  simp [ColorConvert.saturation, ColorConvert.high_gray, ColorConvert.low_gray]

/-- A gray input takes the low-saturation branch: its stretch is the maximal one. -/
theorem ColorConvert.stretch_gray (self : ColorConvert) (k : Nat)
    (hr : 0 < self.rEquiv) (hg : 0 < self.gEquiv) (hb : 0 < self.bEquiv)
    (hw : 0 < self.wEquiv) :
    self.stretch ⟨k, k, k⟩ = (255 + self.over * self.wEquiv) / 255 := by
  have hpos := self.thisShift_pos ⟨k, k, k⟩ hr hg hb hw
  have hlow : self.lowSaturation ⟨k, k, k⟩ := by
    unfold ColorConvert.lowSaturation
    rw [self.saturation_gray k]
    linarith
  unfold ColorConvert.stretch
  rw [if_pos hlow]
  rfl

/-- A gray input whose stretched value does not exceed `wEquiv` has zero red, green and
blue outputs. -/
theorem ColorConvert.rgbToRgbw_gray_rgb_zero (self : ColorConvert) (k : Nat)
    (hr : 0 < self.rEquiv) (hg : 0 < self.gEquiv) (hb : 0 < self.bEquiv)
    (hw : 0 < self.wEquiv) (hk : 1 ≤ k)
    (hcap : (255 + self.over * self.wEquiv) / 255 * (k : ℚ) ≤ self.wEquiv) :
    (self.rgbToRgbw ⟨k, k, k⟩).red = 0 ∧ (self.rgbToRgbw ⟨k, k, k⟩).green = 0
      ∧ (self.rgbToRgbw ⟨k, k, k⟩).blue = 0 := by
  have hst := self.stretch_gray k hr hg hb hw
  have hfl : self.ficLow ⟨k, k, k⟩ = self.stretch ⟨k, k, k⟩ * (k : ℚ) := by
    unfold ColorConvert.ficLow
    rw [self.low_gray k, hst]
    exact min_eq_left hcap
  have hz : truncToInt ((0 : ℚ) + 1 / 2) = 0 := by norm_num [truncToInt]
  rw [self.rgbToRgbw_of_high ⟨k, k, k⟩ (by rw [self.high_gray k]; exact hk)]
  refine ⟨?_, ?_, ?_⟩
  · have : self.rawRed ⟨k, k, k⟩ = 0 := by
      unfold ColorConvert.rawRed ColorConvert.ficR; rw [hfl]; simp
    simp only [this, hz]
  · have : self.rawGreen ⟨k, k, k⟩ = 0 := by
      unfold ColorConvert.rawGreen ColorConvert.ficG; rw [hfl]; simp
    simp only [this, hz]
  · have : self.rawBlue ⟨k, k, k⟩ = 0 := by
      unfold ColorConvert.rawBlue ColorConvert.ficB; rw [hfl]; simp
    simp only [this, hz]

/-- After `setWhiteEquiv(rgbValue, whiteValue)` and `setOverdrive(o)` with
`o <= 1 - whiteValue/rgbValue`, the stretched value of a gray level `k <= 255` stays
within `wEquiv`. -/
theorem gray_cap_of_overdrive_le
    (rgbValue whiteValue o : ℚ) (k : Nat) (hrgb : 0 < rgbValue) (hwhite : 0 < whiteValue)
    (ho : o ≤ 1 - whiteValue / rgbValue) (hk : k ≤ 255) :
    (255 + o * (255 * rgbValue / whiteValue)) / 255 * (k : ℚ)
      ≤ 255 * rgbValue / whiteValue := by
  have hW : 0 < 255 * rgbValue / whiteValue := div_pos (by linarith) hwhite
  have hid : (1 - whiteValue / rgbValue) * (255 * rgbValue / whiteValue)
      = 255 * rgbValue / whiteValue - 255 := by
    have h1 : rgbValue ≠ 0 := ne_of_gt hrgb
    have h2 : whiteValue ≠ 0 := ne_of_gt hwhite
    field_simp
    ring
  have h1 : o * (255 * rgbValue / whiteValue)
      ≤ 255 * rgbValue / whiteValue - 255 := by
    rw [← hid]; exact mul_le_mul_of_nonneg_right ho hW.le
  have hk' : (k : ℚ) ≤ 255 := by exact_mod_cast hk
  have hk0 : (0 : ℚ) ≤ (k : ℚ) := Nat.cast_nonneg k
  by_cases hs : 0 ≤ 255 + o * (255 * rgbValue / whiteValue)
  · have h2 : (255 + o * (255 * rgbValue / whiteValue)) / 255 * (k : ℚ)
        ≤ (255 + o * (255 * rgbValue / whiteValue)) / 255 * 255 :=
      mul_le_mul_of_nonneg_left hk' (div_nonneg hs (by norm_num))
    have h3 : (255 + o * (255 * rgbValue / whiteValue)) / 255 * 255
        = 255 + o * (255 * rgbValue / whiteValue) := div_mul_cancel₀ _ (by norm_num)
    linarith
  · have h2 : (255 + o * (255 * rgbValue / whiteValue)) / 255 ≤ 0 :=
      div_nonpos_of_nonpos_of_nonneg (by linarith) (by norm_num)
    have h3 := mul_nonpos_of_nonpos_of_nonneg h2 hk0
    linarith

/-- Gray inputs are converted without the RGB emitters after `setWhiteEquiv` and an
overdrive of at most `1 - whiteValue/rgbValue`. -/
theorem ColorConvert.gray_rgb_zero_of_overdrive_le (self : ColorConvert)
    (rgbValue whiteValue o : ℚ) (k : Nat) (hrgb : 0 < rgbValue) (hwhite : 0 < whiteValue)
    (ho : o ≤ 1 - whiteValue / rgbValue) (hk1 : 1 ≤ k) (hk2 : k ≤ 255) :
    (((self.setWhiteEquiv rgbValue whiteValue).setOverdrive o).rgbToRgbw ⟨k, k, k⟩).red = 0
      ∧ (((self.setWhiteEquiv rgbValue whiteValue).setOverdrive o).rgbToRgbw ⟨k, k, k⟩).green
          = 0
      ∧ (((self.setWhiteEquiv rgbValue whiteValue).setOverdrive o).rgbToRgbw ⟨k, k, k⟩).blue
          = 0 := by
  have hW : 0 < 255 * rgbValue / whiteValue := div_pos (by linarith) hwhite
  exact ColorConvert.rgbToRgbw_gray_rgb_zero _ k hW hW hW hW hk1
    (gray_cap_of_overdrive_le rgbValue whiteValue o k hrgb hwhite ho hk2)

/-- The unrounded white value of a gray input is monotone in the gray level when the
maximal stretch is non-negative. -/
theorem ColorConvert.rawWhite_gray_mono (self : ColorConvert) (k1 k2 : Nat)
    (hr : 0 < self.rEquiv) (hg : 0 < self.gEquiv) (hb : 0 < self.bEquiv)
    (hw : 0 < self.wEquiv) (ho : 0 ≤ 255 + self.over * self.wEquiv) (hk : k1 ≤ k2) :
    self.rawWhite ⟨k1, k1, k1⟩ ≤ self.rawWhite ⟨k2, k2, k2⟩ := by
  unfold ColorConvert.rawWhite ColorConvert.ficLow
  rw [self.stretch_gray k1 hr hg hb hw, self.stretch_gray k2 hr hg hb hw,
    self.low_gray k1, self.low_gray k2]
  have hs : 0 ≤ (255 + self.over * self.wEquiv) / 255 := div_nonneg ho (by norm_num)
  have hk' : (k1 : ℚ) ≤ (k2 : ℚ) := by exact_mod_cast hk
  have hm := min_le_min_right self.wEquiv (mul_le_mul_of_nonneg_left hk' hs)
  exact div_le_div_of_nonneg_right (mul_le_mul_of_nonneg_right hm (by norm_num)) hw.le

theorem truncToInt_half_eq_255_iff {x : ℚ} (hx : x ≤ 255) :
    truncToInt (x + 1 / 2) = 255 ↔ 509 / 2 ≤ x := by
  unfold truncToInt
  by_cases h0 : 0 ≤ x + 1 / 2
  · rw [if_pos h0, Int.floor_eq_iff]
    constructor
    · rintro ⟨h1, _⟩
      push_cast at h1
      linarith
    · intro h
      push_cast
      constructor <;> linarith
  · rw [if_neg h0]
    have h1 : 0 ≤ ⌊-(x + 1 / 2)⌋ := Int.floor_nonneg.mpr (by linarith [not_le.mp h0])
    constructor
    · intro h; omega
    · intro h; linarith [not_le.mp h0]

/-! Facts about the fixed-width conversion -/

theorem two_pow_pred_le (W : Nat) : 2 ^ (W - 1) ≤ 2 ^ W :=
  Nat.pow_le_pow_right (by decide) (Nat.sub_le W 1)

theorem toIntWrap_of_lt (W n : Nat) (h : n < 2 ^ (W - 1)) : toIntWrap W n = (n : Int) := by
  have hmod : n % 2 ^ W = n := Nat.mod_eq_of_lt (lt_of_lt_of_le h (two_pow_pred_le W))
  unfold toIntWrap
  rw [hmod, if_pos h]

theorem truncToInt_lt_of_lt (W : Nat) {x : ℚ} (h0 : 0 ≤ x) (h1 : x < 2 ^ (W - 1)) :
    truncToInt x < (2 : Int) ^ (W - 1) := by
  rw [truncToInt_of_nonneg h0, Int.floor_lt]
  push_cast
  exact h1

theorem floatToInt_of_nonneg (W : Nat) {x : ℚ} (h0 : 0 ≤ x) (h1 : x < 2 ^ (W - 1)) :
    floatToInt W x = some (truncToInt x) := by
  have h2 := truncToInt_lt_of_lt W h0 h1
  have h3 := truncToInt_nonneg h0
  have h4 : (0 : Int) < (2 : Int) ^ (W - 1) := by positivity
  unfold floatToInt
  rw [if_pos ⟨by linarith, h2⟩]

theorem toUnsigned_of_range (W : Nat) {i : Int} (h0 : 0 ≤ i) (h1 : i < (2 : Int) ^ (W - 1)) :
    toUnsigned W i = i := by
  have h2 : (2 : Int) ^ (W - 1) ≤ (2 : Int) ^ W := by
    exact_mod_cast two_pow_pred_le W
  unfold toUnsigned
  exact Int.emod_eq_of_lt h0 (lt_of_lt_of_le h1 h2)

/-- Where the stretch is non-negative, `high` does not wrap and the four conversions fit,
the `W`-bit conversion computes the `int` values of the exact conversion. -/
theorem ColorConvert.rgbToRgbwInt_eq (self : ColorConvert) (W : Nat) (c : ColorRgb)
    (hr : 0 < self.rEquiv) (hg : 0 < self.gEquiv) (hb : 0 < self.bEquiv)
    (hw : 0 < self.wEquiv) (hs : 0 ≤ self.stretch c) (hh : 1 ≤ self.high c)
    (hH : self.high c < 2 ^ (W - 1)) (hfit : self.fitsInt W c) :
    self.rgbToRgbwInt W c = some (self.rgbToRgbw c) := by
  obtain ⟨f1, f2, f3, f4⟩ := hfit
  have n1 := self.rawRed_nonneg c hr hw hs
  have n2 := self.rawGreen_nonneg c hg hw hs
  have n3 := self.rawBlue_nonneg c hb hw hs
  have n4 := self.rawWhite_nonneg c hw hs
  have hwrap : ¬ toIntWrap W (self.high c) < 1 := by
    rw [toIntWrap_of_lt W _ hH]; omega
  unfold ColorConvert.rgbToRgbwInt
  rw [if_neg hwrap, floatToInt_of_nonneg W (by linarith) f1,
    floatToInt_of_nonneg W (by linarith) f2, floatToInt_of_nonneg W (by linarith) f3,
    floatToInt_of_nonneg W (by linarith) f4, self.rgbToRgbw_of_high c hh]

/-- Under the same conditions the returned `unsigned int` fields hold these values
unchanged. -/
theorem ColorConvert.rgbToRgbwWord_eq (self : ColorConvert) (W : Nat) (c : ColorRgb)
    (hr : 0 < self.rEquiv) (hg : 0 < self.gEquiv) (hb : 0 < self.bEquiv)
    (hw : 0 < self.wEquiv) (hs : 0 ≤ self.stretch c) (hh : 1 ≤ self.high c)
    (hH : self.high c < 2 ^ (W - 1)) (hfit : self.fitsInt W c) :
    self.rgbToRgbwWord W c = some (self.rgbToRgbw c) := by
  have hfit2 := hfit
  obtain ⟨f1, f2, f3, f4⟩ := hfit2
  have n1 := self.rawRed_nonneg c hr hw hs
  have n2 := self.rawGreen_nonneg c hg hw hs
  have n3 := self.rawBlue_nonneg c hb hw hs
  have n4 := self.rawWhite_nonneg c hw hs
  unfold ColorConvert.rgbToRgbwWord
  rw [self.rgbToRgbwInt_eq W c hr hg hb hw hs hh hH hfit, self.rgbToRgbw_of_high c hh]
  simp only [Option.map_some']
  rw [toUnsigned_of_range W (truncToInt_nonneg (by linarith))
      (truncToInt_lt_of_lt W (by linarith) f1),
    toUnsigned_of_range W (truncToInt_nonneg (by linarith))
      (truncToInt_lt_of_lt W (by linarith) f2),
    toUnsigned_of_range W (truncToInt_nonneg (by linarith))
      (truncToInt_lt_of_lt W (by linarith) f3),
    toUnsigned_of_range W (truncToInt_nonneg (by linarith))
      (truncToInt_lt_of_lt W (by linarith) f4)]

/-- The instrumented conversion returns the result of `rgbToRgbw`. -/
theorem ColorConvert.rgbToRgbwTraced_fst (self : ColorConvert) (c : ColorRgb) :
    (self.rgbToRgbwTraced c).1 = self.rgbToRgbw c := by
  unfold ColorConvert.rgbToRgbwTraced ColorConvert.rgbToRgbw ColorConvert.rawRed
    ColorConvert.rawGreen ColorConvert.rawBlue ColorConvert.rawWhite ColorConvert.ficR
    ColorConvert.ficG ColorConvert.ficB ColorConvert.ficLow ColorConvert.stretch
    ColorConvert.lowSaturation ColorConvert.saturation ColorConvert.thisShift
    ColorConvert.high ColorConvert.highShift ColorConvert.low ColorConvert.maxShift
  by_cases h1 : c.green > c.red <;> by_cases h2 : c.blue > c.green <;>
    by_cases h3 : c.blue > c.red <;> simp only [h1, h2, h3, if_true, if_false] <;>
    split_ifs <;> rfl

/-! C1: non-negative outputs -/

/-- C2 (failing input): under the default calibration (625/400/223/625, overdrive 0.6,
so `wEquiv` is the maximum ratio and the overdrive lies in [0,1]) the input (254,255,0),
all channels in [0,255], is converted to red = 397, which exceeds 255. -/
theorem C2_red_exceeds_255 :
    0 < ColorConvert.construct.rEquiv ∧ 0 < ColorConvert.construct.gEquiv
      ∧ 0 < ColorConvert.construct.bEquiv
      ∧ ColorConvert.construct.wEquiv
          = max ColorConvert.construct.rEquiv
              (max ColorConvert.construct.gEquiv ColorConvert.construct.bEquiv)
      ∧ 0 ≤ ColorConvert.construct.over ∧ ColorConvert.construct.over ≤ 1
      ∧ ColorConvert.construct.rgbToRgbw ⟨254, 255, 0⟩ = ⟨397, 255, 0, 0⟩
      ∧ ¬ (ColorConvert.construct.rgbToRgbw ⟨254, 255, 0⟩).red ≤ 255 := by
  norm_num [ColorConvert.rgbToRgbw, ColorConvert.high, ColorConvert.highShift,
    ColorConvert.rawRed, ColorConvert.rawGreen, ColorConvert.rawBlue, ColorConvert.rawWhite,
    ColorConvert.ficR, ColorConvert.ficG, ColorConvert.ficB, ColorConvert.ficLow,
    ColorConvert.stretch, ColorConvert.lowSaturation, ColorConvert.saturation,
    ColorConvert.thisShift, ColorConvert.low, ColorConvert.maxShift,
    ColorConvert.construct, truncToInt]

/-! C3: tie-break of the maximum selection -/

/-- C3 (counterexample): under the default calibration, for (5,5,0) green ties with red for
the maximum and `thisShift` is `wEquiv/rEquiv = 1`, not `wEquiv/gEquiv = 25/16`; for
(5,0,5) blue ties with the running maximum and `thisShift` is again `wEquiv/rEquiv`, not
`wEquiv/bEquiv = 625/223`. -/
theorem C3_tie_break_counterexample :
    ColorConvert.construct.thisShift ⟨5, 5, 0⟩
        = ColorConvert.construct.wEquiv / ColorConvert.construct.rEquiv
      ∧ ColorConvert.construct.thisShift ⟨5, 5, 0⟩
        ≠ ColorConvert.construct.wEquiv / ColorConvert.construct.gEquiv
      ∧ ColorConvert.construct.thisShift ⟨5, 0, 5⟩
        = ColorConvert.construct.wEquiv / ColorConvert.construct.rEquiv
      ∧ ColorConvert.construct.thisShift ⟨5, 0, 5⟩
        ≠ ColorConvert.construct.wEquiv / ColorConvert.construct.bEquiv := by
  norm_num [ColorConvert.thisShift, ColorConvert.highShift, ColorConvert.construct]

/-- C3 (amended): the comparisons of the if-chain are strict, so ties are resolved with
the precedence red > green > blue: `thisShift` is `wEquiv/rEquiv` whenever red is a
maximum (also when green or blue tie with it), `wEquiv/gEquiv` when green is strictly above
red and at least blue (green wins a tie with blue), and `wEquiv/bEquiv` only when blue is
strictly above both red and green. -/
theorem C3_tie_break_red_green_blue (self : ColorConvert) (inColor : ColorRgb) :
    (inColor.green ≤ inColor.red → inColor.blue ≤ inColor.red →
        self.thisShift inColor = self.wEquiv / self.rEquiv)
      ∧ (inColor.red < inColor.green → inColor.blue ≤ inColor.green →
        self.thisShift inColor = self.wEquiv / self.gEquiv)
      ∧ (inColor.red < inColor.blue → inColor.green < inColor.blue →
        self.thisShift inColor = self.wEquiv / self.bEquiv) := by
  unfold ColorConvert.thisShift ColorConvert.highShift
  refine ⟨fun h1 h2 => ?_, fun h1 h2 => ?_, fun h1 h2 => ?_⟩
  · simp [not_lt.mpr h1, not_lt.mpr h2]
  · simp [h1, not_lt.mpr h2]
  · by_cases h : inColor.green > inColor.red
    · simp [h, h2]
    · simp [h, h1]

/-- C3 (witness): at the tie (5,5,5) under the default calibration red is selected. -/
theorem C3_tie_break_red_green_blue_witness :
    ColorConvert.construct.thisShift ⟨5, 5, 5⟩
      = ColorConvert.construct.wEquiv / ColorConvert.construct.rEquiv :=
  (C3_tie_break_red_green_blue ColorConvert.construct ⟨5, 5, 5⟩).1 (by decide) (by decide)

/-! C6: neutral gray routes through white -/

theorem ColorConvert.lowSaturation_of_saturation_zero (self : ColorConvert) (c : ColorRgb)
    (hr : 0 < self.rEquiv) (hg : 0 < self.gEquiv) (hb : 0 < self.bEquiv)
    (hw : 0 < self.wEquiv) (h0 : self.saturation c = 0) : self.lowSaturation c := by
  unfold ColorConvert.lowSaturation
  rw [h0]
  linarith [self.thisShift_pos c hr hg hb hw]

theorem ColorConvert.saturation_pos_of_not_lowSaturation (self : ColorConvert)
    (c : ColorRgb) (hr : 0 < self.rEquiv) (hg : 0 < self.gEquiv) (hb : 0 < self.bEquiv)
    (hw : 0 < self.wEquiv) (h : ¬ self.lowSaturation c) : 0 < self.saturation c := by
  rcases (self.saturation_nonneg c).lt_or_eq with h1 | h1
  · exact h1
  · exact absurd (self.lowSaturation_of_saturation_zero c hr hg hb hw h1.symm) h

/-! C12: pure-channel inputs -/

/-- C12 (counterexample): under the default calibration the pure-blue input (0,0,255) has
saturation 1 but passes the low-saturation test (`630 < 625/223*255`), so its stretch is
`630/255 = 42/17` and not `thisShift = 625/223`. -/
theorem C12_pure_blue_counterexample :
    ColorConvert.construct.saturation ⟨0, 0, 255⟩ = 1
      ∧ ColorConvert.construct.lowSaturation ⟨0, 0, 255⟩
      ∧ ColorConvert.construct.stretch ⟨0, 0, 255⟩ = 42 / 17
      ∧ ColorConvert.construct.thisShift ⟨0, 0, 255⟩ = 625 / 223
      ∧ ColorConvert.construct.stretch ⟨0, 0, 255⟩
          ≠ ColorConvert.construct.thisShift ⟨0, 0, 255⟩ := by
  norm_num [ColorConvert.stretch, ColorConvert.lowSaturation, ColorConvert.saturation,
    ColorConvert.thisShift, ColorConvert.high, ColorConvert.highShift, ColorConvert.low,
    ColorConvert.maxShift, ColorConvert.construct]

/-- C12 (amended): under the default calibration, for every `v` in [1,255] the pure-red
input (v,0,0) and the pure-green input (0,v,0) have saturation 1 and take the
high-saturation branch, so `stretch = thisShift/saturation = thisShift`; the pure-blue
input (0,0,v) has saturation 1 as well but takes the low-saturation branch, with
`stretch = (255 + 0.6*625)/255`. -/
theorem C12_pure_channel_branch (v : Nat) (hv1 : 1 ≤ v) (_hv2 : v ≤ 255) :
    (ColorConvert.construct.saturation ⟨v, 0, 0⟩ = 1
        ∧ ¬ ColorConvert.construct.lowSaturation ⟨v, 0, 0⟩
        ∧ ColorConvert.construct.stretch ⟨v, 0, 0⟩
            = ColorConvert.construct.thisShift ⟨v, 0, 0⟩
              / ColorConvert.construct.saturation ⟨v, 0, 0⟩
        ∧ ColorConvert.construct.stretch ⟨v, 0, 0⟩
            = ColorConvert.construct.thisShift ⟨v, 0, 0⟩)
      ∧ (ColorConvert.construct.saturation ⟨0, v, 0⟩ = 1
        ∧ ¬ ColorConvert.construct.lowSaturation ⟨0, v, 0⟩
        ∧ ColorConvert.construct.stretch ⟨0, v, 0⟩
            = ColorConvert.construct.thisShift ⟨0, v, 0⟩
              / ColorConvert.construct.saturation ⟨0, v, 0⟩
        ∧ ColorConvert.construct.stretch ⟨0, v, 0⟩
            = ColorConvert.construct.thisShift ⟨0, v, 0⟩)
      ∧ (ColorConvert.construct.saturation ⟨0, 0, v⟩ = 1
        ∧ ColorConvert.construct.lowSaturation ⟨0, 0, v⟩
        ∧ ColorConvert.construct.stretch ⟨0, 0, v⟩ = (255 + 6 / 10 * 625) / 255) := by
  have hpos : 0 < v := by omega
  have hv0 : (v : ℚ) ≠ 0 := by exact_mod_cast (by omega : v ≠ 0)
  have hR : ColorConvert.construct.highShift ⟨v, 0, 0⟩ = (v, 625 / 625) := by
    simp [ColorConvert.highShift, ColorConvert.construct]
  have hG : ColorConvert.construct.highShift ⟨0, v, 0⟩ = (v, 625 / 400) := by
    simp [ColorConvert.highShift, ColorConvert.construct, hpos]
  have hB : ColorConvert.construct.highShift ⟨0, 0, v⟩ = (v, 625 / 223) := by
    simp [ColorConvert.highShift, ColorConvert.construct, hpos]
  have sR : ColorConvert.construct.saturation ⟨v, 0, 0⟩ = 1 := by
    simp [ColorConvert.saturation, ColorConvert.high, ColorConvert.low, hR, hv0]
  have sG : ColorConvert.construct.saturation ⟨0, v, 0⟩ = 1 := by
    simp [ColorConvert.saturation, ColorConvert.high, ColorConvert.low, hG, hv0]
  have sB : ColorConvert.construct.saturation ⟨0, 0, v⟩ = 1 := by
    simp [ColorConvert.saturation, ColorConvert.high, ColorConvert.low, hB, hv0]
  have lR : ¬ ColorConvert.construct.lowSaturation ⟨v, 0, 0⟩ := by
    unfold ColorConvert.lowSaturation ColorConvert.thisShift
    rw [sR, hR]
    norm_num [ColorConvert.maxShift, ColorConvert.construct]
  have lG : ¬ ColorConvert.construct.lowSaturation ⟨0, v, 0⟩ := by
    unfold ColorConvert.lowSaturation ColorConvert.thisShift
    rw [sG, hG]
    norm_num [ColorConvert.maxShift, ColorConvert.construct]
  have lB : ColorConvert.construct.lowSaturation ⟨0, 0, v⟩ := by
    unfold ColorConvert.lowSaturation ColorConvert.thisShift
    rw [sB, hB]
    norm_num [ColorConvert.maxShift, ColorConvert.construct]
  refine ⟨⟨sR, lR, ?_, ?_⟩, ⟨sG, lG, ?_, ?_⟩, sB, lB, ?_⟩
  · unfold ColorConvert.stretch; rw [if_neg lR]
  · unfold ColorConvert.stretch; rw [if_neg lR, sR, div_one]
  · unfold ColorConvert.stretch; rw [if_neg lG]
  · unfold ColorConvert.stretch; rw [if_neg lG, sG, div_one]
  · unfold ColorConvert.stretch; rw [if_pos lB]
    norm_num [ColorConvert.maxShift, ColorConvert.construct]

/-- C12 (witness): the pure-red input (255,0,0). -/
theorem C12_pure_channel_branch_witness :
    ColorConvert.construct.saturation ⟨255, 0, 0⟩ = 1
      ∧ ¬ ColorConvert.construct.lowSaturation ⟨255, 0, 0⟩
      ∧ ColorConvert.construct.stretch ⟨255, 0, 0⟩
          = ColorConvert.construct.thisShift ⟨255, 0, 0⟩
            / ColorConvert.construct.saturation ⟨255, 0, 0⟩
      ∧ ColorConvert.construct.stretch ⟨255, 0, 0⟩
          = ColorConvert.construct.thisShift ⟨255, 0, 0⟩ :=
  (C12_pure_channel_branch 255 (by decide) (by decide)).1

/-! C13: no white for fully saturated colours -/

/-- C14: under the default calibration the input (255,255,255) has saturation 0, takes the
low-saturation branch with `stretch = (255 + 0.6*625)/255 = 630/255`, has `ficLow` capped
at 625, unrounded red, green, blue values `5`, `5*400/625`, `5*223/625`, and is converted
to exactly (5, 3, 2, 255). -/
theorem C14_default_white_point :
    ColorConvert.construct.saturation ⟨255, 255, 255⟩ = 0
      ∧ ColorConvert.construct.lowSaturation ⟨255, 255, 255⟩
      ∧ ColorConvert.construct.stretch ⟨255, 255, 255⟩ = (255 + 6 / 10 * 625) / 255
      ∧ ColorConvert.construct.stretch ⟨255, 255, 255⟩ = 630 / 255
      ∧ ColorConvert.construct.ficLow ⟨255, 255, 255⟩ = 625
      ∧ ColorConvert.construct.rawRed ⟨255, 255, 255⟩ = 5
      ∧ ColorConvert.construct.rawGreen ⟨255, 255, 255⟩ = 5 * 400 / 625
      ∧ ColorConvert.construct.rawBlue ⟨255, 255, 255⟩ = 5 * 223 / 625
      ∧ ColorConvert.construct.rgbToRgbw ⟨255, 255, 255⟩ = ⟨5, 3, 2, 255⟩ := by
  norm_num [ColorConvert.rgbToRgbw, ColorConvert.high, ColorConvert.highShift,
    ColorConvert.rawRed, ColorConvert.rawGreen, ColorConvert.rawBlue, ColorConvert.rawWhite,
    ColorConvert.ficR, ColorConvert.ficG, ColorConvert.ficB, ColorConvert.ficLow,
    ColorConvert.stretch, ColorConvert.lowSaturation, ColorConvert.saturation,
    ColorConvert.thisShift, ColorConvert.low, ColorConvert.maxShift,
    ColorConvert.construct, truncToInt]

/-! C16: the two calibration setters agree on the symmetric case -/

/-- C16: for every starting state and all `x`, `y` with `y != 0`, `setWhiteEquiv(x, y)`
and `setRgbWhiteEquiv(x, x, x, y)` produce the same state: the four ratios are `255*x/y`
and the overdrive is unchanged; hence calling one after the other leaves the state produced
by the first unchanged. -/
theorem C16_setters_agree (self : ColorConvert) (x y : ℚ) (_hy : y ≠ 0) :
    self.setWhiteEquiv x y = self.setRgbWhiteEquiv x x x y
      ∧ self.setWhiteEquiv x y
          = { rEquiv := 255 * x / y, gEquiv := 255 * x / y, bEquiv := 255 * x / y,
              wEquiv := 255 * x / y, over := self.over }
      ∧ (self.setWhiteEquiv x y).setRgbWhiteEquiv x x x y = self.setWhiteEquiv x y
      ∧ (self.setRgbWhiteEquiv x x x y).setWhiteEquiv x y = self.setRgbWhiteEquiv x x x y := by
  refine ⟨?_, ?_, ?_, ?_⟩ <;>
    simp [ColorConvert.setWhiteEquiv, ColorConvert.setRgbWhiteEquiv]

/-- C16 (witness): the default state with `x = 200`, `y = 100`. -/
theorem C16_setters_agree_witness :
    ColorConvert.construct.setWhiteEquiv 200 100
      = ColorConvert.construct.setRgbWhiteEquiv 200 200 200 100 :=
  (C16_setters_agree ColorConvert.construct 200 100 (by norm_num)).1

/-! C17: getMaxUnstretchedOverdrive is a function of its argument -/

/-- C17: for every calibration state and every `whiteValue`,
`getMaxUnstretchedOverdrive` returns `1 - whiteValue/255`, whatever the state, and leaves
the five calibration fields unchanged; `getMaxUnstretchedOverdrive(255) = 0` and
`getMaxUnstretchedOverdrive(0) = 1`. -/
theorem C17_getMaxUnstretchedOverdrive_pure (self : ColorConvert) (whiteValue : ℚ) :
    (self.getMaxUnstretchedOverdriveRun whiteValue).1 = 1 - whiteValue / 255
      ∧ (self.getMaxUnstretchedOverdriveRun whiteValue).2 = self
      ∧ (∀ other : ColorConvert,
          other.getMaxUnstretchedOverdrive whiteValue
            = self.getMaxUnstretchedOverdrive whiteValue)
      ∧ self.getMaxUnstretchedOverdrive 255 = 0
      ∧ self.getMaxUnstretchedOverdrive 0 = 1 := by
  refine ⟨rfl, rfl, fun _ => rfl, ?_, ?_⟩ <;>
    norm_num [ColorConvert.getMaxUnstretchedOverdrive]

/-! Facts about the maximum selection and the high-saturation stretch -/

theorem truncToInt_natCast_add_half (n : Nat) : truncToInt ((n : ℚ) + 1 / 2) = (n : Int) := by
  have h0 : (0 : ℚ) ≤ (n : ℚ) := Nat.cast_nonneg n
  rw [truncToInt_of_nonneg (by linarith), Int.floor_eq_iff]
  push_cast
  constructor <;> linarith

/-- The if-chain of lines 84-98, by cases on which channel it selects. -/
theorem ColorConvert.highShift_cases (self : ColorConvert) (c : ColorRgb) :
    (c.green ≤ c.red → c.blue ≤ c.red →
        self.highShift c = (c.red, self.wEquiv / self.rEquiv))
      ∧ (c.red < c.green → c.blue ≤ c.green →
        self.highShift c = (c.green, self.wEquiv / self.gEquiv))
      ∧ (c.red < c.blue → c.green < c.blue →
        self.highShift c = (c.blue, self.wEquiv / self.bEquiv)) := by
  unfold ColorConvert.highShift
  refine ⟨fun h1 h2 => ?_, fun h1 h2 => ?_, fun h1 h2 => ?_⟩
  · simp [not_lt.mpr h1, not_lt.mpr h2]
  · simp [h1, not_lt.mpr h2]
  · by_cases h : c.green > c.red
    · simp [h, h2]
    · simp [h, h1]

/-- In the high-saturation branch the stretch maps the spread `high - low` to
`thisShift * high`. -/
theorem ColorConvert.stretch_mul_spread (self : ColorConvert) (c : ColorRgb)
    (hr : 0 < self.rEquiv) (hg : 0 < self.gEquiv) (hb : 0 < self.bEquiv)
    (hw : 0 < self.wEquiv) (hh : 1 ≤ self.high c) (hhs : ¬ self.lowSaturation c) :
    self.stretch c * ((self.high c : ℚ) - (self.low c : ℚ))
      = self.thisShift c * (self.high c : ℚ) := by
  have hsat := self.saturation_pos_of_not_lowSaturation c hr hg hb hw hhs
  have hH : (0 : ℚ) < (self.high c : ℚ) := by exact_mod_cast (by omega : 0 < self.high c)
  have hsatEq : self.saturation c
      = ((self.high c : ℚ) - (self.low c : ℚ)) / (self.high c : ℚ) := by
    unfold ColorConvert.saturation; push_cast; rfl
  have hd : (0 : ℚ) < (self.high c : ℚ) - (self.low c : ℚ) := by
    rw [hsatEq] at hsat
    exact (div_pos_iff_of_pos_right hH).mp hsat
  unfold ColorConvert.stretch
  rw [if_neg hhs, hsatEq]
  field_simp

/-! C20: the stretch is the smaller candidate -/

/-- Exact conversion: for strictly positive ratios, `255 + over*wEquiv >= 0` and `high >= 1`, with
`s = stretch`, each unrounded output `o_c` satisfies
`o_c*(wEquiv/cEquiv) + o_white*(wEquiv/255) = s*v_c` for c = red, green, blue (the same
factor `s` on the three channels), and the rounded integer outputs satisfy the same
equation within `(wEquiv/cEquiv + wEquiv/255)/2`. -/
theorem ColorConvert.white_substitution_exact (self : ColorConvert) (inColor : ColorRgb)
    (hr : 0 < self.rEquiv) (hg : 0 < self.gEquiv) (hb : 0 < self.bEquiv)
    (hw : 0 < self.wEquiv) (ho : 0 ≤ 255 + self.over * self.wEquiv)
    (hh : 1 ≤ self.high inColor) :
    (self.rawRed inColor * (self.wEquiv / self.rEquiv)
        + self.rawWhite inColor * (self.wEquiv / 255)
        = self.stretch inColor * (inColor.red : ℚ)
      ∧ self.rawGreen inColor * (self.wEquiv / self.gEquiv)
        + self.rawWhite inColor * (self.wEquiv / 255)
        = self.stretch inColor * (inColor.green : ℚ)
      ∧ self.rawBlue inColor * (self.wEquiv / self.bEquiv)
        + self.rawWhite inColor * (self.wEquiv / 255)
        = self.stretch inColor * (inColor.blue : ℚ))
    ∧ (|((self.rgbToRgbw inColor).red : ℚ) * (self.wEquiv / self.rEquiv)
          + ((self.rgbToRgbw inColor).white : ℚ) * (self.wEquiv / 255)
          - self.stretch inColor * (inColor.red : ℚ)|
        ≤ (self.wEquiv / self.rEquiv + self.wEquiv / 255) / 2
      ∧ |((self.rgbToRgbw inColor).green : ℚ) * (self.wEquiv / self.gEquiv)
          + ((self.rgbToRgbw inColor).white : ℚ) * (self.wEquiv / 255)
          - self.stretch inColor * (inColor.green : ℚ)|
        ≤ (self.wEquiv / self.gEquiv + self.wEquiv / 255) / 2
      ∧ |((self.rgbToRgbw inColor).blue : ℚ) * (self.wEquiv / self.bEquiv)
          + ((self.rgbToRgbw inColor).white : ℚ) * (self.wEquiv / 255)
          - self.stretch inColor * (inColor.blue : ℚ)|
        ≤ (self.wEquiv / self.bEquiv + self.wEquiv / 255) / 2) := by
  have hs := self.stretch_nonneg inColor hr hg hb hw ho
  have eR : self.rawRed inColor * (self.wEquiv / self.rEquiv)
      + self.rawWhite inColor * (self.wEquiv / 255)
      = self.stretch inColor * (inColor.red : ℚ) := by
    unfold ColorConvert.rawRed ColorConvert.rawWhite ColorConvert.ficR
    field_simp
  have eG : self.rawGreen inColor * (self.wEquiv / self.gEquiv)
      + self.rawWhite inColor * (self.wEquiv / 255)
      = self.stretch inColor * (inColor.green : ℚ) := by
    unfold ColorConvert.rawGreen ColorConvert.rawWhite ColorConvert.ficG
    field_simp
  have eB : self.rawBlue inColor * (self.wEquiv / self.bEquiv)
      + self.rawWhite inColor * (self.wEquiv / 255)
      = self.stretch inColor * (inColor.blue : ℚ) := by
    unfold ColorConvert.rawBlue ColorConvert.rawWhite ColorConvert.ficB
    field_simp
  have key : ∀ (x y a b : ℚ), 0 ≤ x → 0 ≤ y → 0 < a → 0 < b →
      |((truncToInt (x + 1 / 2) : Int) : ℚ) * a + ((truncToInt (y + 1 / 2) : Int) : ℚ) * b
        - (x * a + y * b)| ≤ (a + b) / 2 := by
    intro x y a b hx hy ha hb'
    have h1 := abs_le.mp (truncToInt_half_sub_le hx)
    have h2 := abs_le.mp (truncToInt_half_sub_le hy)
    rw [abs_le]
    constructor <;> nlinarith [h1.1, h1.2, h2.1, h2.2]
  have hwr := div_pos hw hr
  have hwg := div_pos hw hg
  have hwb := div_pos hw hb
  have hw255 : 0 < self.wEquiv / 255 := div_pos hw (by norm_num)
  refine ⟨⟨eR, eG, eB⟩, ?_⟩
  rw [self.rgbToRgbw_of_high inColor hh, ← eR, ← eG, ← eB]
  exact ⟨key _ _ _ _ (self.rawRed_nonneg inColor hr hw hs)
      (self.rawWhite_nonneg inColor hw hs) hwr hw255,
    key _ _ _ _ (self.rawGreen_nonneg inColor hg hw hs)
      (self.rawWhite_nonneg inColor hw hs) hwg hw255,
    key _ _ _ _ (self.rawBlue_nonneg inColor hb hw hs)
      (self.rawWhite_nonneg inColor hw hs) hwb hw255⟩

/-- Exact conversion: for strictly positive ratios and an overdrive with
`255 + over*wEquiv >= 0`, for all `1 <= k1 < k2 <= 255` the white channel of
`rgbToRgbw(k1,k1,k1)` is at most the white channel of `rgbToRgbw(k2,k2,k2)`. -/
theorem ColorConvert.gray_white_mono_exact (self : ColorConvert) (k1 k2 : Nat)
    (hr : 0 < self.rEquiv) (hg : 0 < self.gEquiv) (hb : 0 < self.bEquiv)
    (hw : 0 < self.wEquiv) (ho : 0 ≤ 255 + self.over * self.wEquiv)
    (hk1 : 1 ≤ k1) (hk : k1 < k2) (_hk2 : k2 ≤ 255) :
    (self.rgbToRgbw ⟨k1, k1, k1⟩).white ≤ (self.rgbToRgbw ⟨k2, k2, k2⟩).white := by
  rw [self.rgbToRgbw_of_high ⟨k1, k1, k1⟩ (by rw [self.high_gray]; exact hk1),
    self.rgbToRgbw_of_high ⟨k2, k2, k2⟩ (by rw [self.high_gray]; omega)]
  apply truncToInt_mono
  linarith [self.rawWhite_gray_mono k1 k2 hr hg hb hw ho hk.le]

/-- Exact conversion: for every calibration with `wEquiv > 0` and every input the white
output of `rgbToRgbw` is at most 255; for an input with `high >= 1` it equals 255 exactly
when `stretch*low >= wEquiv*509/510` (the rounding threshold `254.5` of the white value),
in particular whenever `stretch*low >= wEquiv`. -/
theorem ColorConvert.white_cap_exact (self : ColorConvert) (inColor : ColorRgb) (hw : 0 < self.wEquiv) :
    (self.rgbToRgbw inColor).white ≤ 255
      ∧ (1 ≤ self.high inColor →
          ((self.rgbToRgbw inColor).white = 255
            ↔ self.wEquiv * 509 / 510 ≤ self.stretch inColor * (self.low inColor : ℚ)))
      ∧ (1 ≤ self.high inColor →
          self.wEquiv ≤ self.stretch inColor * (self.low inColor : ℚ) →
          (self.rgbToRgbw inColor).white = 255) := by
  have hraw : self.rawWhite inColor ≤ 255 := by
    unfold ColorConvert.rawWhite
    rw [div_le_iff₀ hw]
    nlinarith [self.ficLow_le_wEquiv inColor]
  have hiff : 1 ≤ self.high inColor →
      ((self.rgbToRgbw inColor).white = 255
        ↔ self.wEquiv * 509 / 510 ≤ self.stretch inColor * (self.low inColor : ℚ)) := by
    intro hh
    rw [self.rgbToRgbw_of_high inColor hh]
    show truncToInt (self.rawWhite inColor + 1 / 2) = 255 ↔ _
    rw [truncToInt_half_eq_255_iff hraw]
    unfold ColorConvert.rawWhite ColorConvert.ficLow
    rw [le_div_iff₀ hw]
    constructor
    · intro h
      have h1 := min_le_left (self.stretch inColor * (self.low inColor : ℚ)) self.wEquiv
      linarith
    · intro h
      have h1 : self.wEquiv * 509 / 510
          ≤ min (self.stretch inColor * (self.low inColor : ℚ)) self.wEquiv :=
        le_min h (by linarith)
      linarith
  refine ⟨?_, hiff, fun hh hcap => (hiff hh).mpr (by linarith)⟩
  by_cases hh : 1 ≤ self.high inColor
  · rw [self.rgbToRgbw_of_high inColor hh]
    show truncToInt (self.rawWhite inColor + 1 / 2) ≤ 255
    have h255 : truncToInt ((255 : ℚ) + 1 / 2) = 255 := by norm_num [truncToInt]
    rw [← h255]
    exact truncToInt_mono (by linarith)
  · unfold ColorConvert.rgbToRgbw
    rw [if_pos (by omega)]
    decide

/-- Exact conversion: for strictly positive ratios, `255 + over*wEquiv >= 0` and `high >= 1`: the
stretch is non-negative, `0 <= ficLow <= stretch*low <= stretch*v` for each input channel
value `v`, every unrounded output is non-negative and so are the four rounded outputs. -/
theorem ColorConvert.nonneg_exact (self : ColorConvert) (inColor : ColorRgb)
    (hr : 0 < self.rEquiv) (hg : 0 < self.gEquiv) (hb : 0 < self.bEquiv)
    (hw : 0 < self.wEquiv) (ho : 0 ≤ 255 + self.over * self.wEquiv)
    (hh : 1 ≤ self.high inColor) :
    0 ≤ self.stretch inColor
      ∧ (0 ≤ self.ficLow inColor
        ∧ self.ficLow inColor ≤ self.stretch inColor * (self.low inColor : ℚ)
        ∧ self.stretch inColor * (self.low inColor : ℚ)
            ≤ self.stretch inColor * (inColor.red : ℚ)
        ∧ self.stretch inColor * (self.low inColor : ℚ)
            ≤ self.stretch inColor * (inColor.green : ℚ)
        ∧ self.stretch inColor * (self.low inColor : ℚ)
            ≤ self.stretch inColor * (inColor.blue : ℚ))
      ∧ (0 ≤ self.rawRed inColor ∧ 0 ≤ self.rawGreen inColor ∧ 0 ≤ self.rawBlue inColor
        ∧ 0 ≤ self.rawWhite inColor)
      ∧ (0 ≤ (self.rgbToRgbw inColor).red ∧ 0 ≤ (self.rgbToRgbw inColor).green
        ∧ 0 ≤ (self.rgbToRgbw inColor).blue ∧ 0 ≤ (self.rgbToRgbw inColor).white) := by
  have hs := self.stretch_nonneg inColor hr hg hb hw ho
  have h1 := self.rawRed_nonneg inColor hr hw hs
  have h2 := self.rawGreen_nonneg inColor hg hw hs
  have h3 := self.rawBlue_nonneg inColor hb hw hs
  have h4 := self.rawWhite_nonneg inColor hw hs
  refine ⟨hs, ⟨self.ficLow_nonneg inColor hw hs, self.ficLow_le inColor,
    mul_le_mul_of_nonneg_left (by exact_mod_cast self.low_le_red inColor) hs,
    mul_le_mul_of_nonneg_left (by exact_mod_cast self.low_le_green inColor) hs,
    mul_le_mul_of_nonneg_left (by exact_mod_cast self.low_le_blue inColor) hs⟩,
    ⟨h1, h2, h3, h4⟩, ?_⟩
  rw [self.rgbToRgbw_of_high inColor hh]
  exact ⟨truncToInt_nonneg (by linarith), truncToInt_nonneg (by linarith),
    truncToInt_nonneg (by linarith), truncToInt_nonneg (by linarith)⟩

/-- Exact conversion: for strictly positive ratios and an input with `high >= 1` that takes the
high-saturation branch with `stretch*low <= wEquiv`, the channel selected by the if-chain
as the maximum (red when it is at least green and blue; green when strictly above red and
at least blue; blue when strictly above both) has an unrounded output equal to `high`, and
its rounded output equals its input value exactly. -/
theorem ColorConvert.dominant_channel_exact (self : ColorConvert) (inColor : ColorRgb)
    (hr : 0 < self.rEquiv) (hg : 0 < self.gEquiv) (hb : 0 < self.bEquiv)
    (hw : 0 < self.wEquiv) (hh : 1 ≤ self.high inColor)
    (hhs : ¬ self.lowSaturation inColor)
    (hcap : self.stretch inColor * (self.low inColor : ℚ) ≤ self.wEquiv) :
    (inColor.green ≤ inColor.red → inColor.blue ≤ inColor.red →
        self.rawRed inColor = (self.high inColor : ℚ)
          ∧ (self.rgbToRgbw inColor).red = (inColor.red : Int))
      ∧ (inColor.red < inColor.green → inColor.blue ≤ inColor.green →
        self.rawGreen inColor = (self.high inColor : ℚ)
          ∧ (self.rgbToRgbw inColor).green = (inColor.green : Int))
      ∧ (inColor.red < inColor.blue → inColor.green < inColor.blue →
        self.rawBlue inColor = (self.high inColor : ℚ)
          ∧ (self.rgbToRgbw inColor).blue = (inColor.blue : Int)) := by
  have hsp := self.stretch_mul_spread inColor hr hg hb hw hh hhs
  have hfl : self.ficLow inColor = self.stretch inColor * (self.low inColor : ℚ) :=
    min_eq_left hcap
  have hcases := self.highShift_cases inColor
  have hr0 : self.rEquiv ≠ 0 := ne_of_gt hr
  have hg0 : self.gEquiv ≠ 0 := ne_of_gt hg
  have hb0 : self.bEquiv ≠ 0 := ne_of_gt hb
  have hw0 : self.wEquiv ≠ 0 := ne_of_gt hw
  rw [self.rgbToRgbw_of_high inColor hh]
  refine ⟨fun h1 h2 => ?_, fun h1 h2 => ?_, fun h1 h2 => ?_⟩
  · have hhs2 := hcases.1 h1 h2
    have hH : self.high inColor = inColor.red := by
      unfold ColorConvert.high; rw [hhs2]
    have hT : self.thisShift inColor = self.wEquiv / self.rEquiv := by
      unfold ColorConvert.thisShift; rw [hhs2]
    have hraw : self.rawRed inColor = (self.high inColor : ℚ) := by
      unfold ColorConvert.rawRed ColorConvert.ficR
      rw [hfl, ← hH, ← mul_sub, hsp, hT]
      field_simp
    refine ⟨hraw, ?_⟩
    show truncToInt (self.rawRed inColor + 1 / 2) = _
    rw [hraw, hH]
    exact truncToInt_natCast_add_half _
  · have hhs2 := hcases.2.1 h1 h2
    have hH : self.high inColor = inColor.green := by
      unfold ColorConvert.high; rw [hhs2]
    have hT : self.thisShift inColor = self.wEquiv / self.gEquiv := by
      unfold ColorConvert.thisShift; rw [hhs2]
    have hraw : self.rawGreen inColor = (self.high inColor : ℚ) := by
      unfold ColorConvert.rawGreen ColorConvert.ficG
      rw [hfl, ← hH, ← mul_sub, hsp, hT]
      field_simp
    refine ⟨hraw, ?_⟩
    show truncToInt (self.rawGreen inColor + 1 / 2) = _
    rw [hraw, hH]
    exact truncToInt_natCast_add_half _
  · have hhs2 := hcases.2.2 h1 h2
    have hH : self.high inColor = inColor.blue := by
      unfold ColorConvert.high; rw [hhs2]
    have hT : self.thisShift inColor = self.wEquiv / self.bEquiv := by
      unfold ColorConvert.thisShift; rw [hhs2]
    have hraw : self.rawBlue inColor = (self.high inColor : ℚ) := by
      unfold ColorConvert.rawBlue ColorConvert.ficB
      rw [hfl, ← hH, ← mul_sub, hsp, hT]
      field_simp
    refine ⟨hraw, ?_⟩
    show truncToInt (self.rawBlue inColor + 1 / 2) = _
    rw [hraw, hH]
    exact truncToInt_natCast_add_half _

theorem ColorConvert.rgbToRgbwWord_black (self : ColorConvert) (W : Nat) (c : ColorRgb)
    (h : toIntWrap W (self.high c) < 1) :
    self.rgbToRgbwWord W c = some ⟨0, 0, 0, 0⟩ := by
  unfold ColorConvert.rgbToRgbwWord ColorConvert.rgbToRgbwInt
  rw [if_pos h]
  simp [toUnsigned]


theorem ColorConvert.stretch_nonneg_of_not_lowSaturation (self : ColorConvert)
    (c : ColorRgb) (hr : 0 < self.rEquiv) (hg : 0 < self.gEquiv) (hb : 0 < self.bEquiv)
    (hw : 0 < self.wEquiv) (hhs : ¬ self.lowSaturation c) : 0 ≤ self.stretch c := by
  unfold ColorConvert.stretch
  rw [if_neg hhs]
  exact div_nonneg (self.thisShift_pos c hr hg hb hw).le (self.saturation_nonneg c)

/-- The fixed-width conversion agrees with the exact one on every input whose `high` does
not wrap, once the stretch is non-negative and the conversions fit. -/
theorem ColorConvert.rgbToRgbwWord_eq_total (self : ColorConvert) (W : Nat) (c : ColorRgb)
    (hr : 0 < self.rEquiv) (hg : 0 < self.gEquiv) (hb : 0 < self.bEquiv)
    (hw : 0 < self.wEquiv) (hs : 0 ≤ self.stretch c)
    (hH : self.high c < 2 ^ (W - 1)) (hfit : self.fitsInt W c) :
    self.rgbToRgbwWord W c = some (self.rgbToRgbw c) := by
  by_cases hh : 1 ≤ self.high c
  · exact self.rgbToRgbwWord_eq W c hr hg hb hw hs hh hH hfit
  · have h0 : self.high c < 1 := by omega
    have h1 : self.rgbToRgbw c = ⟨0, 0, 0, 0⟩ := by
      unfold ColorConvert.rgbToRgbw; rw [if_pos h0]
    rw [h1]
    apply self.rgbToRgbwWord_black
    rw [toIntWrap_of_lt W _ hH]
    omega

/-- The default calibration converts a gray level up to 255 within a 16-bit `int`. -/
theorem ColorConvert.construct_fitsInt_gray (k : Nat) (hk : k ≤ 255) :
    ColorConvert.construct.fitsInt 16 ⟨k, k, k⟩ := by
  have hr : 0 < ColorConvert.construct.rEquiv := by norm_num [ColorConvert.construct]
  have hg : 0 < ColorConvert.construct.gEquiv := by norm_num [ColorConvert.construct]
  have hb : 0 < ColorConvert.construct.bEquiv := by norm_num [ColorConvert.construct]
  have hw : 0 < ColorConvert.construct.wEquiv := by norm_num [ColorConvert.construct]
  have hst := ColorConvert.construct.stretch_gray k hr hg hb hw
  have hk' : (k : ℚ) ≤ 255 := by exact_mod_cast hk
  have hk0 : (0 : ℚ) ≤ (k : ℚ) := Nat.cast_nonneg k
  have hfl := ColorConvert.construct.ficLow_le_wEquiv ⟨k, k, k⟩
  have hfl0 : 0 ≤ ColorConvert.construct.ficLow ⟨k, k, k⟩ := by
    apply ColorConvert.construct.ficLow_nonneg _ hw
    rw [hst]; norm_num [ColorConvert.construct]
  unfold ColorConvert.fitsInt ColorConvert.rawRed ColorConvert.rawGreen
    ColorConvert.rawBlue ColorConvert.rawWhite ColorConvert.ficR ColorConvert.ficG
    ColorConvert.ficB
  rw [hst]
  simp only [ColorConvert.construct] at hfl hfl0 ⊢
  norm_num
  refine ⟨?_, ?_, ?_, ?_⟩ <;> nlinarith


/-- Under the default calibration the conversions of (200,100,50) fit a 16-bit `int`. -/
theorem ColorConvert.construct_fitsInt_sample :
    ColorConvert.construct.fitsInt 16 ⟨200, 100, 50⟩ := by
  norm_num [ColorConvert.fitsInt, ColorConvert.rawRed, ColorConvert.rawGreen,
    ColorConvert.rawBlue, ColorConvert.rawWhite, ColorConvert.ficR, ColorConvert.ficG,
    ColorConvert.ficB, ColorConvert.ficLow, ColorConvert.stretch,
    ColorConvert.lowSaturation, ColorConvert.saturation, ColorConvert.thisShift,
    ColorConvert.high, ColorConvert.highShift, ColorConvert.low, ColorConvert.maxShift,
    ColorConvert.construct]

/-! C4: degenerate input -/

/-- C4 (counterexample): with 32-bit integers the input (2147483648,0,0) is not (0,0,0),
yet its `int high` wraps to a value below 1 and `rgbToRgbw` returns (0,0,0,0). -/
theorem C4_wrapped_high_counterexample :
    (⟨2147483648, 0, 0⟩ : ColorRgb) ≠ ⟨0, 0, 0⟩
      ∧ toIntWrap 32 (ColorConvert.construct.high ⟨2147483648, 0, 0⟩) < 1
      ∧ ColorConvert.construct.rgbToRgbwWord 32 ⟨2147483648, 0, 0⟩ = some ⟨0, 0, 0, 0⟩ := by
  refine ⟨by decide, ?_, ?_⟩
  · norm_num [toIntWrap, ColorConvert.high, ColorConvert.highShift]
  · norm_num [ColorConvert.rgbToRgbwWord, ColorConvert.rgbToRgbwInt, toIntWrap, toUnsigned,
      ColorConvert.high, ColorConvert.highShift]

/-- C4 (amended): for every calibration state and every integer width, `rgbToRgbw` maps
(0,0,0) to exactly (0,0,0,0), having evaluated only the division `wEquiv/rEquiv` (the
saturation division by `high` is not reached); and among the inputs whose channels are at
most `INT_MAX = 2^(W-1) - 1`, (0,0,0) is the only one with `high < 1`. -/
theorem C4_black_returns_zero (self : ColorConvert) (W : Nat) :
    self.rgbToRgbwWord W ⟨0, 0, 0⟩ = some ⟨0, 0, 0, 0⟩
      ∧ self.rgbToRgbwTraced ⟨0, 0, 0⟩ = (⟨0, 0, 0, 0⟩, [self.rEquiv])
      ∧ ∀ inColor : ColorRgb, self.high inColor < 2 ^ (W - 1) →
          (toIntWrap W (self.high inColor) < 1 ↔ inColor = ⟨0, 0, 0⟩) := by
  refine ⟨?_, ?_, ?_⟩
  · apply self.rgbToRgbwWord_black
    have h0 : self.high ⟨0, 0, 0⟩ = 0 := self.high_gray 0
    rw [h0, toIntWrap_of_lt W 0 (by positivity)]
    decide
  · simp [ColorConvert.rgbToRgbwTraced]
  · intro inColor hH
    rw [toIntWrap_of_lt W _ hH, ColorConvert.high_eq_max]
    constructor
    · intro h
      cases inColor with
      | mk r g b =>
        simp only [ColorRgb.mk.injEq]
        simp only at h
        omega
    · intro h
      subst h
      decide

/-- C4 (witness): with 16-bit integers the input (0,0,1) has `high = 1`, not below 1. -/
theorem C4_black_returns_zero_witness :
    (toIntWrap 16 (ColorConvert.construct.high ⟨0, 0, 1⟩) < 1
      ↔ (⟨0, 0, 1⟩ : ColorRgb) = ⟨0, 0, 0⟩) :=
  (C4_black_returns_zero ColorConvert.construct 16).2.2 ⟨0, 0, 1⟩
    (by simp [ColorConvert.high, ColorConvert.highShift])

/-! C5: the white substitution preserves appearance -/

